import Mathlib

/-!
Shallow embedding of the task-inference pipeline
(`backend/app/services/task_inference.py`) and the agent-loop controller
(`backend/app/services/gemini_service.py`, `GeminiService.stream_chat`) of the
sbhacks repository, together with theorems settling the specification claims.

Text is modelled as `List Char`.  The external Model Client and Tool Executor
are modelled as function parameters (oracles): the outcome of a
`generate_text` call is `Except Str Str` (raised error or returned text), the
outcome of a `generate_structured_async` call is `Except Str TaskExtraction`
(provider or schema-validation failure, or a validated instance), and a tool
execution is `Except Str JVal`.  Floating-point confidences are modelled as
rationals.
-/

namespace Sbhacks

/-- Text, modelled as a list of characters (Python `str`). -/
abbrev Str := List Char

/-! ## Data model (`backend/app/models/schemas.py`) -/

/-- The `Priority` enum: LOW | MEDIUM | HIGH. -/
inductive Priority where
  | low
  | medium
  | high
deriving DecidableEq, Repr

/-- The `MessageSource` enum: SLACK | GMAIL. -/
inductive MessageSource where
  | slack
  | gmail
deriving DecidableEq, Repr

/-- Schema `MessageContext`: context about the incoming message being analyzed. -/
structure MessageContext where
  source : MessageSource
  content : Str
  sender : Str
  timestamp : Str
  channel : Option Str
  channel_type : Option Str
  thread_id : Option Str
  subject : Option Str
  message_id : Option Str
  is_reply : Option Bool
deriving DecidableEq, Repr

/-- Schema `TaskDetails`: extracted task details from Stage 2 inference. -/
structure TaskDetails where
  title : Str
  description : Option Str
  due_date : Option Str
  priority : Priority
  reasoning : Str
deriving DecidableEq, Repr

/-- Schema `TaskExtraction`: response schema for Stage 2 structured output. -/
structure TaskExtraction where
  is_task : Bool
  confidence : Rat
  task : Option TaskDetails
deriving DecidableEq, Repr

/-- The pydantic field constraint on `TaskExtraction.confidence`
(`ge=0.00, le=1.00`): a schema-validated instance satisfies it. -/
def TaskExtraction.WellFormed (t : TaskExtraction) : Prop :=
  0 ≤ t.confidence ∧ t.confidence ≤ 1

instance (t : TaskExtraction) : Decidable t.WellFormed := by
  unfold TaskExtraction.WellFormed; infer_instance

/-- Schema `SourceContext`: original message metadata stored with proposals. -/
structure SourceContext where
  channel : Option Str
  subject : Option Str
  sender : Str
  timestamp : Str
  original_content : Str
  message_id : Option Str
  thread_id : Option Str
deriving DecidableEq, Repr

/-- Schema `TaskProposal`: a task proposal generated from incoming messages. -/
structure TaskProposal where
  proposal_id : Str
  type : Str
  title : Str
  description : Option Str
  due_date : Option Str
  priority : Priority
  source : MessageSource
  source_context : SourceContext
  confidence : Rat
  reasoning : Str
  created_at : Str
deriving DecidableEq, Repr

/-! ## Text helpers used by the pipeline -/

/-- Python `str.strip()`: remove leading and trailing whitespace. -/
def stripStr (s : Str) : Str :=
  ((s.dropWhile Char.isWhitespace).reverse.dropWhile Char.isWhitespace).reverse

/-- Python `str.lower()`. -/
def lowerStr (s : Str) : Str := s.map Char.toLower

/-- Python substring membership `needle in hay`. -/
def hasSubstr (needle : Str) : Str → Bool
  | [] => needle.isEmpty
  | c :: rest => needle.isPrefixOf (c :: rest) || hasSubstr needle rest

/-! ## Stage 1: classification (`classify_message`, task_inference.py 32-84) -/

/-- Outcome of a Model Client `generate_text` call: a raised exception or the
returned text. -/
abbrev TextOutcome := Except Str Str

/-- The fragment of the message content embedded into the classification
prompt: `content[:500]`. -/
def classificationInput (content : Str) : Str := content.take 500

/-- Text of the classification prompt before the embedded message content. -/
def classificationPromptHead : Str :=
  ("You are classifying messages. Respond with exactly one word: either \"task\" or \"chat\".\n\nTASK - message contains:\n- Deadlines (by today, by Friday, EOD, ASAP, due)\n- Action requests (complete, finish, do, submit, send, review)\n- Assignments or todos\n- Something that needs to be done\n\nCHAT - message contains:\n- Greetings, social chat\n- Already completed items\n- Pure information with no action needed\n\nMessage to classify:\n\"").data

/-- Text of the classification prompt after the embedded message content. -/
def classificationPromptTail : Str :=
  ("\"\n\nClassification (task or chat):").data

/-- The full classification prompt (the f-string at task_inference.py 45-61):
the message content is truncated to its first 500 characters. -/
def classificationPrompt (content : Str) : Str :=
  classificationPromptHead ++ classificationInput content ++ classificationPromptTail

/-- Function `classify_message` (task_inference.py 32-84).  `mc` is the Model Client's
`generate_text`, applied to the built prompt.  Mirrors the source: on a raised
error return `"task"`; otherwise normalize (`strip().lower()` with Python
falsiness on the raw result); empty normalized text yields `"task"`; otherwise
the substring test `"task" in raw_result` decides.  The normalization
`result.strip().lower() if result else ""` (task_inference.py 67) is the
helper below. -/
def normalizeResponse (result : Str) : Str :=
  if result = [] then [] else lowerStr (stripStr result)

/-- Function `classify_message` (task_inference.py 32-84), continued. -/
def classify_message (mc : Str → TextOutcome) (content : Str) : Str :=
  match mc (classificationPrompt content) with
  | Except.error _ => ("task").data
  | Except.ok result =>
    if normalizeResponse result = [] then ("task").data
    else if hasSubstr (("task").data) (normalizeResponse result) then ("task").data
    else ("chat").data

/-! ## Stage 2: extraction (`extract_task_details`, task_inference.py 91-187) -/

/-- Outcome of the Model Client `generate_structured_async` call: a raised
exception (provider failure, or `model_validate_json` schema failure) or a
schema-validated `TaskExtraction`.  The system/user prompt construction
(task_inference.py 108-166) is absorbed into this oracle, since the claims
under verification do not depend on the extraction prompt text. -/
abbrev ExtractionOutcome := Except Str TaskExtraction

/-- Function `extract_task_details` (task_inference.py 168-187): return the Model
Client's validated result; on any raised error return the fail-closed
`TaskExtraction(is_task=False, confidence=0.0, task=None)`. -/
def extract_task_details (em : ExtractionOutcome) : TaskExtraction :=
  match em with
  | Except.ok result => result
  | Except.error _ => { is_task := false, confidence := 0, task := none }

/-! ## Pipeline (`infer_task_from_message`, task_inference.py 194-254) -/

/-- The default `confidence_threshold` of `infer_task_from_message`. -/
def defaultConfidenceThreshold : Rat := 0.6

/-- Function `infer_task_from_message` (task_inference.py 194-254).  `fresh_hex` is the
`uuid.uuid4().hex` value and `now_iso` the `datetime.now().isoformat()` value,
both effects of the source made explicit parameters. -/
def infer_task_from_message (mc : Str → TextOutcome) (em : ExtractionOutcome)
    (fresh_hex now_iso : Str) (context : MessageContext)
    (confidence_threshold : Rat) : Option TaskProposal :=
  let classification := classify_message mc context.content
  if classification = ("chat").data then none
  else
    let extraction := extract_task_details em
    if extraction.is_task = false ∨ extraction.confidence < confidence_threshold then none
    else
      match extraction.task with
      | none => none
      | some task =>
        some {
          proposal_id := fresh_hex.take 8
          type := ("task_proposal").data
          title := task.title
          description := task.description
          due_date := task.due_date
          priority := task.priority
          source := context.source
          source_context := {
            channel := context.channel
            subject := context.subject
            sender := context.sender
            timestamp := context.timestamp
            original_content := context.content.take 1000
            message_id := context.message_id
            thread_id := context.thread_id }
          confidence := extraction.confidence
          reasoning := task.reasoning
          created_at := now_iso }

/-! ## Agent loop (`GeminiService.stream_chat`, gemini_service.py 56-243)

The Model Client's streaming capability is an oracle mapping the step index
and the current message to the step's outcome: either a raised exception or
the ordered list of streamed chunks.  Each chunk carries its text (possibly
empty, Python falsiness) and the function-call parts detected in it (the
candidates/content/parts nesting flattened, in order). -/

/-- A JSON-compatible value (tool arguments and results). -/
inductive JVal where
  | null
  | bool (b : Bool)
  | num (n : Int)
  | str (s : Str)
  | arr (items : List JVal)
  | obj (fields : List (Str × JVal))

/-- A tool-call request detected in a streamed chunk (gemini_service.py
151-155): name and argument mapping. -/
structure ToolCall where
  name : Str
  args : List (Str × JVal)

/-- One streamed response chunk: its text (empty when absent) and its
function-call parts, in order. -/
structure Chunk where
  text : Str
  calls : List ToolCall

/-- Outcome of one `chat.send_message_async` call: a raised exception or the
streamed chunks. -/
abbrev StepOutcome := Except Str (List Chunk)

/-- A `Part.from_function_response` value (gemini_service.py 196-201, 217-222). -/
structure FunctionResponsePart where
  name : Str
  response : JVal

/-- The `current_message` sent to the model: the initial user text on step 0,
or the function-role `Content` carrying tool responses on later steps
(gemini_service.py 108, 225-228). -/
inductive CurrentMessage where
  | text (s : Str)
  | functionContent (parts : List FunctionResponsePart)

/-- An emitted stream record (gemini_service.py docstring 84-89). -/
inductive StreamEvent where
  | text (content : Str)
  | tool_call (name : Str) (args : List (Str × JVal))
  | tool_result (name : Str) (result : JVal)
  | error (content : Str)
  | done

/-- A chat-history message (`{"role": ..., "content": ...}`). -/
structure ChatMsg where
  role : Str
  content : Str
deriving DecidableEq, Repr

/-- Outcome of a Tool Executor call `execute_tool(name, args)`: a raised
exception or the returned value (annotated `dict` but handled as any value,
gemini_service.py 180, 194). -/
abbrev Exec := Str → List (Str × JVal) → Except Str JVal

/-- The streaming Model Client oracle: step index and current message to
step outcome. -/
abbrev Model := Nat → CurrentMessage → StepOutcome

/-- Events emitted while consuming one chunk (gemini_service.py
135-162): the text event if the chunk has text, then one `tool_call` event
per detected function call, in order. -/
def chunkEvents (c : Chunk) : List StreamEvent :=
  (if c.text = [] then [] else [StreamEvent.text c.text])
    ++ c.calls.map (fun tc => StreamEvent.tool_call tc.name tc.args)

/-- Events emitted while consuming a whole step's stream, chunk by chunk. -/
def stepEvents : List Chunk → List StreamEvent
  | [] => []
  | c :: cs => chunkEvents c ++ stepEvents cs

/-- The ordered tool-call list collected over a step's stream
(gemini_service.py 132, 155). -/
def stepToolCalls : List Chunk → List ToolCall
  | [] => []
  | c :: cs => c.calls ++ stepToolCalls cs

/-- The value placed in the function-response `Struct` (gemini_service.py 194):
the Python expression `{"result": result} if not isinstance(result, dict)
else result`. -/
def wrapResult (v : JVal) : JVal :=
  match v with
  | JVal.obj fields => JVal.obj fields
  | _ => JVal.obj [(("result").data, v)]

/-- The tool-execution inner loop (gemini_service.py 177-222): execute each
collected call in order; on success emit a `tool_result` event with the raw
result and append a function-response part with the dict-wrapped result; on a
raised exception emit a `tool_result` event with `{"error": str(e)}` and
append a function-response part with the same error payload. -/
def execToolCalls (ex : Exec) : List ToolCall → List StreamEvent × List FunctionResponsePart
  | [] => ([], [])
  | tc :: rest =>
    let t := execToolCalls ex rest
    match ex tc.name tc.args with
    | Except.ok result =>
      (StreamEvent.tool_result tc.name result :: t.1,
       { name := tc.name, response := wrapResult result } :: t.2)
    | Except.error e =>
      (StreamEvent.tool_result tc.name (JVal.obj [(("error").data, JVal.str e)]) :: t.1,
       { name := tc.name, response := JVal.obj [(("error").data, JVal.str e)] } :: t.2)

/-- The agent loop body (`for step in range(max_steps)`, gemini_service.py
121-240), by structural recursion on the remaining step budget.  On a model
error the step emits one `error` event and the loop breaks; on an empty
collected tool-call list the loop breaks after the step's events; with tool
calls but no executor the loop breaks likewise; otherwise the tool-execution
events follow and the loop re-enters with the function-response content as
the next current message. -/
def loopSteps (model : Model) (ex : Option Exec) :
    Nat → CurrentMessage → Nat → List StreamEvent
  | _, _, 0 => []
  | step, msg, fuel + 1 =>
    match model step msg with
    | Except.error e => [StreamEvent.error e]
    | Except.ok chunks =>
      let evs := stepEvents chunks
      let tcs := stepToolCalls chunks
      if tcs.isEmpty then evs
      else
        match ex with
        | none => evs
        | some f =>
          let t := execToolCalls f tcs
          evs ++ t.1 ++ loopSteps model ex (step + 1) (CurrentMessage.functionContent t.2) fuel

/-- The initial current message, `messages[-1]["content"] if messages else ""` (gemini_service.py 108). -/
def initialMessage (messages : List ChatMsg) : Str :=
  match messages.getLast? with
  | some m => m.content
  | none => []

/-- Function `GeminiService.stream_chat` (gemini_service.py 56-243), as the list of
events it yields: the agent loop's events followed by the single terminal
`done` event (gemini_service.py 242). -/
def stream_chat (model : Model) (ex : Option Exec) (messages : List ChatMsg)
    (max_steps : Nat) : List StreamEvent :=
  loopSteps model ex 0 (CurrentMessage.text (initialMessage messages)) max_steps
    ++ [StreamEvent.done]

/-- The number of model invocations (loop iterations) the agent loop
performs, mirroring the recursion of `loopSteps`. -/
def loopCallCount (model : Model) (ex : Option Exec) :
    Nat → CurrentMessage → Nat → Nat
  | _, _, 0 => 0
  | step, msg, fuel + 1 =>
    match model step msg with
    | Except.error _ => 1
    | Except.ok chunks =>
      let tcs := stepToolCalls chunks
      if tcs.isEmpty then 1
      else
        match ex with
        | none => 1
        | some f =>
          1 + loopCallCount model ex (step + 1)
                (CurrentMessage.functionContent (execToolCalls f tcs).2) fuel

/-- Event classifiers used by the stream-shape theorems. -/
def isDone : StreamEvent → Bool
  | StreamEvent.done => true
  | _ => false

def isError : StreamEvent → Bool
  | StreamEvent.error _ => true
  | _ => false

/-- Events that may appear inside a tool-call round: text, `tool_call`,
`tool_result`. -/
def isRoundEvent : StreamEvent → Bool
  | StreamEvent.text _ => true
  | StreamEvent.tool_call _ _ => true
  | StreamEvent.tool_result _ _ => true
  | _ => false

/-! ## Concrete stub collaborators, used by the witness theorems -/

/-- A Model Client text stub that always answers `"Task."`. -/
def mcTaskStub : Str → TextOutcome := fun _ => Except.ok (("Task.").data)

/-- A Model Client text stub that always answers `"task"`. -/
def mcPlainTaskStub : Str → TextOutcome := fun _ => Except.ok (("task").data)

/-- A successful extraction outcome above the default threshold. -/
def emOkStub : ExtractionOutcome :=
  Except.ok
    { is_task := true
      confidence := 7/10
      task := some
        { title := ("send the report").data
          description := none
          due_date := none
          priority := Priority.high
          reasoning := ("explicit request").data } }

/-- A concrete Slack message context. -/
def ctxStub : MessageContext :=
  { source := MessageSource.slack
    content := ("please send the report").data
    sender := ("ana").data
    timestamp := ("2024-01-03T10:00:00").data
    channel := some (("general").data)
    channel_type := none
    thread_id := none
    subject := none
    message_id := none
    is_reply := none }

/-- A streaming Model Client stub that always requests one tool call. -/
def modelCallStub : Model :=
  fun _ _ => Except.ok [{ text := [], calls := [{ name := ("t").data, args := [] }] }]

/-- A streaming Model Client stub that always raises. -/
def modelErrStub : Model := fun _ _ => Except.error (("quota").data)

/-- A Tool Executor stub that always succeeds with a non-mapping value. -/
def execOkStub : Exec := fun _ _ => Except.ok (JVal.num 3)

/-- A Tool Executor stub that always fails. -/
def execFailStub : Exec := fun _ _ => Except.error (("no such tool").data)

/-- The proposal `infer_task_from_message` builds from the stubs above. -/
def proposalStub : TaskProposal :=
  { proposal_id := ("01234567").data
    type := ("task_proposal").data
    title := ("send the report").data
    description := none
    due_date := none
    priority := Priority.high
    source := MessageSource.slack
    source_context :=
      { channel := some (("general").data)
        subject := none
        sender := ("ana").data
        timestamp := ("2024-01-03T10:00:00").data
        original_content := ("please send the report").data
        message_id := none
        thread_id := none }
    confidence := 7/10
    reasoning := ("explicit request").data
    created_at := ("2024-01-03T12:00:00").data }

/-! ## Theorems: the inference pipeline -/

/-- The Python-falsiness branch on the raw classification response collapses:
an empty response also normalizes to the empty string. -/
theorem normalizeResponse_eq (r : Str) :
    normalizeResponse r = lowerStr (stripStr r) := by
  unfold normalizeResponse
  by_cases h : r = []
  · subst h; rfl
  · simp [h]

/-- Behaviour of `classify_message` when the Model Client raises. -/
theorem classify_message_of_error (mc : Str → TextOutcome) (content : Str) (e : Str)
    (h : mc (classificationPrompt content) = Except.error e) :
    classify_message mc content = ("task").data := by
  unfold classify_message
  rw [h]

/-- Behaviour of `classify_message` when the Model Client returns text. -/
theorem classify_message_of_ok (mc : Str → TextOutcome) (content : Str) (r : Str)
    (h : mc (classificationPrompt content) = Except.ok r) :
    classify_message mc content =
      (if normalizeResponse r = [] then ("task").data
       else if hasSubstr (("task").data) (normalizeResponse r) then ("task").data
       else ("chat").data) := by
  unfold classify_message
  rw [h]

/-- C4: for every input content, `classify_message` returns exactly one of
`"task"` or `"chat"` (and, being a total function, never raises past its
boundary); whenever the Model Client raises any error or returns an empty or
whitespace-only string the result is `"task"`; otherwise the result is
`"task"` iff the trimmed, lower-cased response contains the substring
`"task"`. -/
theorem classify_message_fail_open (mc : Str → TextOutcome) (content : Str) :
    (classify_message mc content = ("task").data ∨
     classify_message mc content = ("chat").data) ∧
    (∀ e, mc (classificationPrompt content) = Except.error e →
      classify_message mc content = ("task").data) ∧
    (∀ r, mc (classificationPrompt content) = Except.ok r →
      lowerStr (stripStr r) = [] →
      classify_message mc content = ("task").data) ∧
    (∀ r, mc (classificationPrompt content) = Except.ok r →
      lowerStr (stripStr r) ≠ [] →
      (classify_message mc content = ("task").data ↔
        hasSubstr (("task").data) (lowerStr (stripStr r)) = true)) := by
  refine ⟨?_, fun e he => classify_message_of_error mc content e he, ?_, ?_⟩
  · cases hmc : mc (classificationPrompt content) with
    | error e => exact Or.inl (classify_message_of_error mc content e hmc)
    | ok r =>
      rw [classify_message_of_ok mc content r hmc]
      by_cases h1 : normalizeResponse r = []
      · simp [h1]
      · by_cases h2 : hasSubstr (("task").data) (normalizeResponse r) = true
        · simp [h1, h2]
        · simp [h1, h2]
  · intro r hr h1
    rw [classify_message_of_ok mc content r hr, normalizeResponse_eq, h1]
    rfl
  · intro r hr h1
    rw [classify_message_of_ok mc content r hr, normalizeResponse_eq]
    rw [if_neg h1]
    by_cases h2 : hasSubstr (("task").data) (lowerStr (stripStr r)) = true
    · simp [h2]
    · rw [if_neg h2]
      constructor
      · intro h; exact absurd h (by decide)
      · intro h; exact absurd h h2

/-- Witness for C4 at a concrete Model Client and content. -/
theorem classify_message_fail_open_witness :
    (classify_message mcTaskStub (("hello").data) = ("task").data ∨
     classify_message mcTaskStub (("hello").data) = ("chat").data) ∧
    (∀ e, mcTaskStub (classificationPrompt (("hello").data)) = Except.error e →
      classify_message mcTaskStub (("hello").data) = ("task").data) ∧
    (∀ r, mcTaskStub (classificationPrompt (("hello").data)) = Except.ok r →
      lowerStr (stripStr r) = [] →
      classify_message mcTaskStub (("hello").data) = ("task").data) ∧
    (∀ r, mcTaskStub (classificationPrompt (("hello").data)) = Except.ok r →
      lowerStr (stripStr r) ≠ [] →
      (classify_message mcTaskStub (("hello").data) = ("task").data ↔
        hasSubstr (("task").data) (lowerStr (stripStr r)) = true)) :=
  classify_message_fail_open mcTaskStub (("hello").data)

/-- C5: for every extraction outcome whose successful values are
schema-validated, `extract_task_details` returns a well-formed
`TaskExtraction` (and, being total, never raises past its boundary); whenever
the Model Client call fails for any reason the result is exactly
`{is_task: false, confidence: 0.0, task: None}`. -/
theorem extract_task_details_fail_closed (em : ExtractionOutcome)
    (hv : ∀ r, em = Except.ok r → r.WellFormed) :
    (extract_task_details em).WellFormed ∧
    (∀ e, em = Except.error e →
      extract_task_details em = { is_task := false, confidence := 0, task := none }) := by
  cases em with
  | ok r =>
    exact ⟨hv r rfl, fun e he => by cases he⟩
  | error e =>
    constructor
    · show TaskExtraction.WellFormed { is_task := false, confidence := 0, task := none }
      exact ⟨le_refl 0, by norm_num⟩
    · exact fun e he => rfl

/-- Witness for C5 at a concrete failing extraction outcome. -/
theorem extract_task_details_fail_closed_witness :
    (extract_task_details (Except.error (("boom").data))).WellFormed ∧
    (∀ e, (Except.error (("boom").data) : ExtractionOutcome) = Except.error e →
      extract_task_details (Except.error (("boom").data)) =
        { is_task := false, confidence := 0, task := none }) :=
  extract_task_details_fail_closed (Except.error (("boom").data)) (fun r h => by cases h)

/-- C1: `infer_task_from_message` returns `none` exactly when the Classifier
answers `"chat"`, or the Extractor's `is_task` is false, or its confidence is
strictly below the threshold, or its task details are absent; in every other
case it returns a `TaskProposal`. -/
theorem infer_task_from_message_none_iff (mc : Str → TextOutcome)
    (em : ExtractionOutcome) (fresh_hex now_iso : Str) (context : MessageContext)
    (confidence_threshold : Rat) :
    infer_task_from_message mc em fresh_hex now_iso context confidence_threshold = none ↔
      (classify_message mc context.content = ("chat").data ∨
       (extract_task_details em).is_task = false ∨
       (extract_task_details em).confidence < confidence_threshold ∨
       (extract_task_details em).task = none) := by
  simp only [infer_task_from_message]
  by_cases h1 : classify_message mc context.content = ("chat").data
  · rw [if_pos h1]
    exact ⟨fun _ => Or.inl h1, fun _ => rfl⟩
  · rw [if_neg h1]
    by_cases h2 : (extract_task_details em).is_task = false ∨
        (extract_task_details em).confidence < confidence_threshold
    · rw [if_pos h2]
      refine ⟨fun _ => ?_, fun _ => rfl⟩
      rcases h2 with h2 | h2
      · exact Or.inr (Or.inl h2)
      · exact Or.inr (Or.inr (Or.inl h2))
    · rw [if_neg h2]
      cases htask : (extract_task_details em).task with
      | none =>
        exact ⟨fun _ => Or.inr (Or.inr (Or.inr rfl)), fun _ => rfl⟩
      | some t =>
        constructor
        · intro h
          exact Option.noConfusion h
        · intro h
          rcases h with h | h | h | h
          · exact absurd h h1
          · exact absurd (Or.inl h) h2
          · exact absurd (Or.inr h) h2
          · exact Option.noConfusion h

/-- C9: the `source_context.original_content` stored in a built proposal has
length `min(len(content), 1000)`, and the message content embedded in the
classification prompt passed to the Model Client has length
`min(len(content), 500)`. -/
theorem truncation_lengths (mc : Str → TextOutcome) (em : ExtractionOutcome)
    (fresh_hex now_iso : Str) (context : MessageContext) (confidence_threshold : Rat)
    (p : TaskProposal)
    (h : infer_task_from_message mc em fresh_hex now_iso context confidence_threshold = some p) :
    p.source_context.original_content.length = min context.content.length 1000 ∧
    (classificationInput context.content).length = min context.content.length 500 ∧
    classificationPrompt context.content =
      classificationPromptHead ++ classificationInput context.content ++ classificationPromptTail := by
  refine ⟨?_, ?_, rfl⟩
  · simp only [infer_task_from_message] at h
    by_cases h1 : classify_message mc context.content = ("chat").data
    · rw [if_pos h1] at h
      exact Option.noConfusion h
    · rw [if_neg h1] at h
      by_cases h2 : (extract_task_details em).is_task = false ∨
          (extract_task_details em).confidence < confidence_threshold
      · rw [if_pos h2] at h
        exact Option.noConfusion h
      · rw [if_neg h2] at h
        cases htask : (extract_task_details em).task with
        | none =>
          rw [htask] at h
          exact Option.noConfusion h
        | some t =>
          rw [htask] at h
          have hp := Option.some.inj h
          subst hp
          simp [List.length_take, Nat.min_comm]
  · simp [classificationInput, List.length_take, Nat.min_comm]

/-- Witness for C9: a concrete run of the pipeline that builds a proposal. -/
theorem truncation_lengths_witness :
    proposalStub.source_context.original_content.length =
      min ctxStub.content.length 1000 ∧
    (classificationInput ctxStub.content).length = min ctxStub.content.length 500 ∧
    classificationPrompt ctxStub.content =
      classificationPromptHead ++ classificationInput ctxStub.content ++ classificationPromptTail :=
  truncation_lengths mcPlainTaskStub emOkStub (("0123456789abcdef").data)
    (("2024-01-03T12:00:00").data) ctxStub defaultConfidenceThreshold proposalStub
    (by
      simp only [infer_task_from_message]
      rw [if_neg (by decide), if_neg ?hgate]
      case hgate =>
        intro hcon
        rcases hcon with hc | hc
        · revert hc
          decide
        · norm_num [extract_task_details, emOkStub, defaultConfidenceThreshold] at hc
      rfl)

/-! ## Theorems: the agent loop.  First, equation lemmas for the recursive
definitions, then the event-shape invariants shared by the claims. -/

/-- Unfolding `execToolCalls` on a successful execution, first component. -/
theorem execToolCalls_fst_cons_ok (f : Exec) (tc : ToolCall) (rest : List ToolCall)
    (v : JVal) (h : f tc.name tc.args = Except.ok v) :
    (execToolCalls f (tc :: rest)).1 =
      StreamEvent.tool_result tc.name v :: (execToolCalls f rest).1 := by
  simp [execToolCalls, h]

/-- Unfolding `execToolCalls` on a successful execution, second component. -/
theorem execToolCalls_snd_cons_ok (f : Exec) (tc : ToolCall) (rest : List ToolCall)
    (v : JVal) (h : f tc.name tc.args = Except.ok v) :
    (execToolCalls f (tc :: rest)).2 =
      { name := tc.name, response := wrapResult v } :: (execToolCalls f rest).2 := by
  simp [execToolCalls, h]

/-- Unfolding `execToolCalls` on a failing execution, first component. -/
theorem execToolCalls_fst_cons_error (f : Exec) (tc : ToolCall) (rest : List ToolCall)
    (msg : Str) (h : f tc.name tc.args = Except.error msg) :
    (execToolCalls f (tc :: rest)).1 =
      StreamEvent.tool_result tc.name (JVal.obj [(("error").data, JVal.str msg)])
        :: (execToolCalls f rest).1 := by
  simp [execToolCalls, h]

/-- Unfolding `execToolCalls` on a failing execution, second component. -/
theorem execToolCalls_snd_cons_error (f : Exec) (tc : ToolCall) (rest : List ToolCall)
    (msg : Str) (h : f tc.name tc.args = Except.error msg) :
    (execToolCalls f (tc :: rest)).2 =
      { name := tc.name, response := JVal.obj [(("error").data, JVal.str msg)] }
        :: (execToolCalls f rest).2 := by
  simp [execToolCalls, h]

/-- Unfolding `loopSteps` when the Model Client raises. -/
theorem loopSteps_succ_error (model : Model) (ex : Option Exec) (step : Nat)
    (msg : CurrentMessage) (fuel : Nat) (e : Str)
    (h : model step msg = Except.error e) :
    loopSteps model ex step msg (fuel + 1) = [StreamEvent.error e] := by
  simp [loopSteps, h]

/-- Unfolding `loopSteps` when the step produced no tool calls. -/
theorem loopSteps_succ_ok_empty (model : Model) (ex : Option Exec) (step : Nat)
    (msg : CurrentMessage) (fuel : Nat) (chunks : List Chunk)
    (h : model step msg = Except.ok chunks)
    (he : (stepToolCalls chunks).isEmpty = true) :
    loopSteps model ex step msg (fuel + 1) = stepEvents chunks := by
  simp [loopSteps, h, he]

/-- Unfolding `loopSteps` when tool calls were collected but no executor was
supplied. -/
theorem loopSteps_succ_ok_noexec (model : Model) (step : Nat)
    (msg : CurrentMessage) (fuel : Nat) (chunks : List Chunk)
    (h : model step msg = Except.ok chunks)
    (he : (stepToolCalls chunks).isEmpty = false) :
    loopSteps model none step msg (fuel + 1) = stepEvents chunks := by
  simp [loopSteps, h, he]

/-- Unfolding `loopSteps` when tool calls are executed and the loop
re-enters. -/
theorem loopSteps_succ_ok_exec (model : Model) (f : Exec) (step : Nat)
    (msg : CurrentMessage) (fuel : Nat) (chunks : List Chunk)
    (h : model step msg = Except.ok chunks)
    (he : (stepToolCalls chunks).isEmpty = false) :
    loopSteps model (some f) step msg (fuel + 1) =
      stepEvents chunks ++ (execToolCalls f (stepToolCalls chunks)).1
        ++ loopSteps model (some f) (step + 1)
            (CurrentMessage.functionContent (execToolCalls f (stepToolCalls chunks)).2) fuel := by
  simp [loopSteps, h, he]

/-- Every event emitted while consuming a chunk is a text or `tool_call`
event. -/
theorem isRoundEvent_of_chunkEvents {e : StreamEvent} {c : Chunk}
    (h : e ∈ chunkEvents c) : isRoundEvent e = true := by
  unfold chunkEvents at h
  rcases List.mem_append.mp h with h | h
  · by_cases ht : c.text = []
    · rw [if_pos ht] at h
      exact absurd h (List.not_mem_nil e)
    · rw [if_neg ht] at h
      obtain rfl := List.mem_singleton.mp h
      rfl
  · obtain ⟨tc, _, rfl⟩ := List.mem_map.mp h
    rfl

/-- Every event emitted while consuming a step's stream is a text or
`tool_call` event. -/
theorem isRoundEvent_of_stepEvents {e : StreamEvent} :
    ∀ {cs : List Chunk}, e ∈ stepEvents cs → isRoundEvent e = true := by
  intro cs
  induction cs with
  | nil =>
    intro h
    simp only [stepEvents] at h
    exact absurd h (List.not_mem_nil e)
  | cons c cs ih =>
    intro h
    simp only [stepEvents] at h
    rcases List.mem_append.mp h with h | h
    · exact isRoundEvent_of_chunkEvents h
    · exact ih h

/-- Every event emitted by the tool-execution inner loop is a `tool_result`
event. -/
theorem isRoundEvent_of_execToolCalls {e : StreamEvent} (f : Exec) :
    ∀ {tcs : List ToolCall}, e ∈ (execToolCalls f tcs).1 → isRoundEvent e = true := by
  intro tcs
  induction tcs with
  | nil =>
    intro h
    simp only [execToolCalls] at h
    exact absurd h (List.not_mem_nil e)
  | cons tc rest ih =>
    intro h
    cases hfx : f tc.name tc.args with
    | error msg =>
      rw [execToolCalls_fst_cons_error f tc rest msg hfx] at h
      rcases List.mem_cons.mp h with rfl | h
      · rfl
      · exact ih h
    | ok v =>
      rw [execToolCalls_fst_cons_ok f tc rest v hfx] at h
      rcases List.mem_cons.mp h with rfl | h
      · rfl
      · exact ih h

/-- Round events are not `done`. -/
theorem isDone_of_isRoundEvent {e : StreamEvent} (h : isRoundEvent e = true) :
    isDone e = false := by
  cases e <;> first | rfl | exact absurd h (by simp [isRoundEvent])

/-- Round events are not `error`. -/
theorem isError_of_isRoundEvent {e : StreamEvent} (h : isRoundEvent e = true) :
    isError e = false := by
  cases e <;> first | rfl | exact absurd h (by simp [isRoundEvent])

/-- The agent loop body itself never emits a `done` event. -/
theorem loopSteps_no_done (model : Model) (ex : Option Exec) :
    ∀ fuel step msg, ∀ e ∈ loopSteps model ex step msg fuel, isDone e = false := by
  intro fuel
  induction fuel with
  | zero =>
    intro step msg e he
    simp only [loopSteps] at he
    exact absurd he (List.not_mem_nil e)
  | succ fuel ih =>
    intro step msg e he
    cases hm : model step msg with
    | error err =>
      rw [loopSteps_succ_error model ex step msg fuel err hm] at he
      obtain rfl := List.mem_singleton.mp he
      rfl
    | ok chunks =>
      cases hne : (stepToolCalls chunks).isEmpty with
      | true =>
        rw [loopSteps_succ_ok_empty model ex step msg fuel chunks hm hne] at he
        exact isDone_of_isRoundEvent (isRoundEvent_of_stepEvents he)
      | false =>
        cases ex with
        | none =>
          rw [loopSteps_succ_ok_noexec model step msg fuel chunks hm hne] at he
          exact isDone_of_isRoundEvent (isRoundEvent_of_stepEvents he)
        | some f =>
          rw [loopSteps_succ_ok_exec model f step msg fuel chunks hm hne] at he
          rcases List.mem_append.mp he with he | he
          · rcases List.mem_append.mp he with he | he
            · exact isDone_of_isRoundEvent (isRoundEvent_of_stepEvents he)
            · exact isDone_of_isRoundEvent (isRoundEvent_of_execToolCalls f he)
          · exact ih (step + 1) _ e he

/-- When the Model Client never raises, the agent loop body never emits an
`error` event. -/
theorem loopSteps_no_error (model : Model) (ex : Option Exec)
    (hok : ∀ i m, ∃ cs, model i m = Except.ok cs) :
    ∀ fuel step msg, ∀ e ∈ loopSteps model ex step msg fuel, isError e = false := by
  intro fuel
  induction fuel with
  | zero =>
    intro step msg e he
    simp only [loopSteps] at he
    exact absurd he (List.not_mem_nil e)
  | succ fuel ih =>
    intro step msg e he
    obtain ⟨chunks, hm⟩ := hok step msg
    cases hne : (stepToolCalls chunks).isEmpty with
    | true =>
      rw [loopSteps_succ_ok_empty model ex step msg fuel chunks hm hne] at he
      exact isError_of_isRoundEvent (isRoundEvent_of_stepEvents he)
    | false =>
      cases ex with
      | none =>
        rw [loopSteps_succ_ok_noexec model step msg fuel chunks hm hne] at he
        exact isError_of_isRoundEvent (isRoundEvent_of_stepEvents he)
      | some f =>
        rw [loopSteps_succ_ok_exec model f step msg fuel chunks hm hne] at he
        rcases List.mem_append.mp he with he | he
        · rcases List.mem_append.mp he with he | he
          · exact isError_of_isRoundEvent (isRoundEvent_of_stepEvents he)
          · exact isError_of_isRoundEvent (isRoundEvent_of_execToolCalls f he)
        · exact ih (step + 1) _ e he

/-- The stream always ends with the `done` event. -/
theorem stream_chat_getLast (model : Model) (ex : Option Exec)
    (messages : List ChatMsg) (max_steps : Nat) :
    (stream_chat model ex messages max_steps).getLast? = some StreamEvent.done := by
  unfold stream_chat
  exact List.getLast?_concat ..

/-- The stream contains exactly one `done` event. -/
theorem stream_chat_countP_done (model : Model) (ex : Option Exec)
    (messages : List ChatMsg) (max_steps : Nat) :
    (stream_chat model ex messages max_steps).countP isDone = 1 := by
  unfold stream_chat
  rw [List.countP_append]
  have h0 : (loopSteps model ex 0 (CurrentMessage.text (initialMessage messages))
      max_steps).countP isDone = 0 := by
    refine List.countP_eq_zero.mpr (fun e he hcontra => ?_)
    rw [loopSteps_no_done model ex max_steps 0 _ e he] at hcontra
    exact Bool.noConfusion hcontra
  rw [h0]
  rfl

/-- C2: every invocation of `stream_chat`, whatever terminal path the loop
takes, emits a stream whose final event is `done` and which contains exactly
one `done` event — so no event follows `done`. -/
theorem stream_chat_done_final (model : Model) (ex : Option Exec)
    (messages : List ChatMsg) (max_steps : Nat) :
    (stream_chat model ex messages max_steps).getLast? = some StreamEvent.done ∧
    (stream_chat model ex messages max_steps).countP isDone = 1 :=
  ⟨stream_chat_getLast model ex messages max_steps,
   stream_chat_countP_done model ex messages max_steps⟩

/-- Under a Model Client that always requests tool calls, the loop body's
events decompose into at most `fuel` rounds of round events. -/
theorem loopSteps_rounds (model : Model) (f : Exec)
    (H : ∀ i m, ∃ cs, model i m = Except.ok cs ∧ stepToolCalls cs ≠ []) :
    ∀ fuel step msg, ∃ rounds : List (List StreamEvent),
      loopSteps model (some f) step msg fuel = rounds.flatten ∧
      rounds.length ≤ fuel ∧
      ∀ r ∈ rounds, ∀ e ∈ r, isRoundEvent e = true := by
  intro fuel
  induction fuel with
  | zero =>
    intro step msg
    exact ⟨[], by simp [loopSteps], by simp, by simp⟩
  | succ fuel ih =>
    intro step msg
    obtain ⟨cs, hm, hne⟩ := H step msg
    have hne2 : (stepToolCalls cs).isEmpty = false := by
      cases h : stepToolCalls cs with
      | nil => exact absurd h hne
      | cons a l => rfl
    obtain ⟨rounds, hflat, hlen, hround⟩ :=
      ih (step + 1) (CurrentMessage.functionContent (execToolCalls f (stepToolCalls cs)).2)
    refine ⟨(stepEvents cs ++ (execToolCalls f (stepToolCalls cs)).1) :: rounds, ?_, ?_, ?_⟩
    · rw [loopSteps_succ_ok_exec model f step msg fuel cs hm hne2, hflat]
      simp [List.append_assoc]
    · simpa using Nat.succ_le_succ hlen
    · intro r hr e he
      rcases List.mem_cons.mp hr with rfl | hr
      · rcases List.mem_append.mp he with he | he
        · exact isRoundEvent_of_stepEvents he
        · exact isRoundEvent_of_execToolCalls f he
      · exact hround r hr e he

/-- The loop never performs more iterations than its step budget. -/
theorem loopCallCount_le (model : Model) (ex : Option Exec) :
    ∀ fuel step msg, loopCallCount model ex step msg fuel ≤ fuel := by
  intro fuel
  induction fuel with
  | zero =>
    intro step msg
    exact Nat.le_refl 0
  | succ fuel ih =>
    intro step msg
    cases hm : model step msg with
    | error e =>
      simp [loopCallCount, hm]
    | ok chunks =>
      cases hne : (stepToolCalls chunks).isEmpty with
      | true =>
        simp [loopCallCount, hm, hne]
      | false =>
        cases ex with
        | none =>
          simp [loopCallCount, hm, hne]
        | some f =>
          have hrec := ih (step + 1)
            (CurrentMessage.functionContent (execToolCalls f (stepToolCalls chunks)).2)
          simp [loopCallCount, hm, hne]
          omega

/-- C3: for every step budget and every Model Client stub that always
returns a tool-call request, with a Tool Executor supplied, the loop
performs at most `max_steps` iterations, its output splits into at most
`max_steps` rounds of text/tool-call/tool-result events followed by exactly
one `done` event, and (being a total function) it always terminates. -/
theorem agent_loop_step_bound (model : Model) (f : Exec) (messages : List ChatMsg)
    (max_steps : Nat)
    (H : ∀ i m, ∃ cs, model i m = Except.ok cs ∧ stepToolCalls cs ≠ []) :
    (∃ rounds : List (List StreamEvent),
      stream_chat model (some f) messages max_steps =
        rounds.flatten ++ [StreamEvent.done] ∧
      rounds.length ≤ max_steps ∧
      ∀ r ∈ rounds, ∀ e ∈ r, isRoundEvent e = true) ∧
    loopCallCount model (some f) 0 (CurrentMessage.text (initialMessage messages))
      max_steps ≤ max_steps ∧
    (stream_chat model (some f) messages max_steps).countP isDone = 1 := by
  refine ⟨?_, loopCallCount_le model (some f) max_steps 0 _,
    stream_chat_countP_done model (some f) messages max_steps⟩
  obtain ⟨rounds, hflat, hlen, hround⟩ := loopSteps_rounds model f H max_steps 0
    (CurrentMessage.text (initialMessage messages))
  refine ⟨rounds, ?_, hlen, hround⟩
  unfold stream_chat
  rw [hflat]

/-- Witness for C3 with a concrete always-calling model stub and budget 2. -/
theorem agent_loop_step_bound_witness :
    (∃ rounds : List (List StreamEvent),
      stream_chat modelCallStub (some execOkStub) [] 2 =
        rounds.flatten ++ [StreamEvent.done] ∧
      rounds.length ≤ 2 ∧
      ∀ r ∈ rounds, ∀ e ∈ r, isRoundEvent e = true) ∧
    loopCallCount modelCallStub (some execOkStub) 0
      (CurrentMessage.text (initialMessage [])) 2 ≤ 2 ∧
    (stream_chat modelCallStub (some execOkStub) [] 2).countP isDone = 1 :=
  agent_loop_step_bound modelCallStub execOkStub [] 2
    (fun _ _ => ⟨_, rfl, by simp [stepToolCalls]⟩)

/-- C7: if the Model Client raises during a step, that step emits exactly the
one `error` event carrying the error's description and the loop attempts no
further steps; at the top level the stream is the error event followed by
`done`. -/
theorem model_error_terminates (model : Model) (ex : Option Exec) (step : Nat)
    (msg : CurrentMessage) (fuel : Nat) (e : Str) (messages : List ChatMsg)
    (h : model step msg = Except.error e)
    (h0 : model 0 (CurrentMessage.text (initialMessage messages)) = Except.error e) :
    loopSteps model ex step msg (fuel + 1) = [StreamEvent.error e] ∧
    stream_chat model ex messages (fuel + 1) =
      [StreamEvent.error e, StreamEvent.done] := by
  refine ⟨loopSteps_succ_error model ex step msg fuel e h, ?_⟩
  unfold stream_chat
  rw [loopSteps_succ_error model ex 0 _ fuel e h0]
  rfl

/-- Witness for C7 with a concrete always-raising model stub. -/
theorem model_error_terminates_witness :
    loopSteps modelErrStub none 0 (CurrentMessage.text []) (1 + 1) =
      [StreamEvent.error (("quota").data)] ∧
    stream_chat modelErrStub none [] (1 + 1) =
      [StreamEvent.error (("quota").data), StreamEvent.done] :=
  model_error_terminates modelErrStub none 0 (CurrentMessage.text []) 1
    (("quota").data) [] rfl rfl

/-- No event of a chunk is a `tool_result` event. -/
theorem chunkEvents_no_tool_result {nm : Str} {res : JVal} {c : Chunk} :
    StreamEvent.tool_result nm res ∉ chunkEvents c := by
  intro h
  unfold chunkEvents at h
  rcases List.mem_append.mp h with h | h
  · by_cases ht : c.text = []
    · rw [if_pos ht] at h
      exact List.not_mem_nil _ h
    · rw [if_neg ht] at h
      exact StreamEvent.noConfusion (List.mem_singleton.mp h)
  · obtain ⟨tc, _, heq⟩ := List.mem_map.mp h
    exact StreamEvent.noConfusion heq

/-- No event of a step's stream is a `tool_result` event. -/
theorem stepEvents_no_tool_result {nm : Str} {res : JVal} :
    ∀ {cs : List Chunk}, StreamEvent.tool_result nm res ∉ stepEvents cs := by
  intro cs
  induction cs with
  | nil =>
    intro h
    simp only [stepEvents] at h
    exact List.not_mem_nil _ h
  | cons c cs ih =>
    intro h
    simp only [stepEvents] at h
    rcases List.mem_append.mp h with h | h
    · exact chunkEvents_no_tool_result h
    · exact ih h

/-- Every collected tool call was already announced by a `tool_call` event of
the same step. -/
theorem tool_call_mem_stepEvents :
    ∀ {cs : List Chunk} {tc : ToolCall}, tc ∈ stepToolCalls cs →
      StreamEvent.tool_call tc.name tc.args ∈ stepEvents cs := by
  intro cs
  induction cs with
  | nil =>
    intro tc h
    simp only [stepToolCalls] at h
    exact absurd h (List.not_mem_nil tc)
  | cons c cs ih =>
    intro tc h
    simp only [stepToolCalls] at h
    simp only [stepEvents]
    rcases List.mem_append.mp h with h | h
    · refine List.mem_append.mpr (Or.inl ?_)
      unfold chunkEvents
      exact List.mem_append.mpr (Or.inr (List.mem_map.mpr ⟨tc, h, rfl⟩))
    · exact List.mem_append.mpr (Or.inr (ih h))

/-- C8: when a step collects a non-empty tool-call list but no Tool Executor
was supplied, the step's `tool_call` events are still emitted, the loop
terminates immediately after them with no `tool_result` events and no
further model calls, and the stream closes with `done`. -/
theorem no_executor_terminates (model : Model) (step fuel : Nat)
    (msg : CurrentMessage) (chunks : List Chunk) (messages : List ChatMsg)
    (h : model step msg = Except.ok chunks)
    (h0 : model 0 (CurrentMessage.text (initialMessage messages)) = Except.ok chunks)
    (hne : (stepToolCalls chunks).isEmpty = false) :
    loopSteps model none step msg (fuel + 1) = stepEvents chunks ∧
    (∀ tc ∈ stepToolCalls chunks,
      StreamEvent.tool_call tc.name tc.args ∈ stepEvents chunks) ∧
    (∀ nm res, StreamEvent.tool_result nm res ∉ stepEvents chunks) ∧
    stream_chat model none messages (fuel + 1) =
      stepEvents chunks ++ [StreamEvent.done] := by
  refine ⟨loopSteps_succ_ok_noexec model step msg fuel chunks h hne,
    fun tc htc => tool_call_mem_stepEvents htc,
    fun nm res => stepEvents_no_tool_result, ?_⟩
  unfold stream_chat
  rw [loopSteps_succ_ok_noexec model 0 _ fuel chunks h0 hne]

/-- Witness for C8 with a concrete tool-requesting model stub and no
executor. -/
theorem no_executor_terminates_witness :
    loopSteps modelCallStub none 0 (CurrentMessage.text []) (2 + 1) =
      stepEvents [{ text := [], calls := [{ name := ("t").data, args := [] }] }] ∧
    (∀ tc ∈ stepToolCalls [{ text := [], calls := [{ name := ("t").data, args := [] }] }],
      StreamEvent.tool_call tc.name tc.args ∈
        stepEvents [{ text := [], calls := [{ name := ("t").data, args := [] }] }]) ∧
    (∀ nm res, StreamEvent.tool_result nm res ∉
      stepEvents [{ text := [], calls := [{ name := ("t").data, args := [] }] }]) ∧
    stream_chat modelCallStub none [] (2 + 1) =
      stepEvents [{ text := [], calls := [{ name := ("t").data, args := [] }] }]
        ++ [StreamEvent.done] :=
  no_executor_terminates modelCallStub 0 2 (CurrentMessage.text [])
    [{ text := [], calls := [{ name := ("t").data, args := [] }] }] [] rfl rfl rfl

/-- C6: a Tool Executor failure on an individual call is turned into a
`tool_result` event and function-response turn carrying `{"error": message}`,
execution continues with the remaining calls, and the loop still produces an
error-event-free stream ending in `done` (given the Model Client itself does
not raise). -/
theorem tool_failure_resilience (f : Exec) (nm : Str) (args : List (Str × JVal))
    (msg : Str) (rest : List ToolCall) (model : Model) (messages : List ChatMsg)
    (max_steps : Nat)
    (hfail : f nm args = Except.error msg)
    (hok : ∀ i m, ∃ cs, model i m = Except.ok cs) :
    (execToolCalls f ({ name := nm, args := args } :: rest)).1 =
      StreamEvent.tool_result nm (JVal.obj [(("error").data, JVal.str msg)])
        :: (execToolCalls f rest).1 ∧
    (execToolCalls f ({ name := nm, args := args } :: rest)).2 =
      { name := nm, response := JVal.obj [(("error").data, JVal.str msg)] }
        :: (execToolCalls f rest).2 ∧
    (∀ e ∈ stream_chat model (some f) messages max_steps, isError e = false) ∧
    (stream_chat model (some f) messages max_steps).getLast? =
      some StreamEvent.done := by
  refine ⟨execToolCalls_fst_cons_error f { name := nm, args := args } rest msg hfail,
    execToolCalls_snd_cons_error f { name := nm, args := args } rest msg hfail,
    ?_, stream_chat_getLast model (some f) messages max_steps⟩
  intro e he
  unfold stream_chat at he
  rcases List.mem_append.mp he with he | he
  · exact loopSteps_no_error model (some f) hok max_steps 0 _ e he
  · obtain rfl := List.mem_singleton.mp he
    rfl

/-- Witness for C6 with a concrete always-failing executor. -/
theorem tool_failure_resilience_witness :
    (execToolCalls execFailStub ({ name := ("t").data, args := [] } :: [])).1 =
      StreamEvent.tool_result (("t").data)
          (JVal.obj [(("error").data, JVal.str (("no such tool").data))])
        :: (execToolCalls execFailStub []).1 ∧
    (execToolCalls execFailStub ({ name := ("t").data, args := [] } :: [])).2 =
      { name := ("t").data,
        response := JVal.obj [(("error").data, JVal.str (("no such tool").data))] }
        :: (execToolCalls execFailStub []).2 ∧
    (∀ e ∈ stream_chat modelCallStub (some execFailStub) [] 1, isError e = false) ∧
    (stream_chat modelCallStub (some execFailStub) [] 1).getLast? =
      some StreamEvent.done :=
  tool_failure_resilience execFailStub (("t").data) [] (("no such tool").data) []
    modelCallStub [] 1 rfl (fun _ _ => ⟨_, rfl⟩)

/-- C10: a successful tool execution whose result is not a mapping is wrapped
as `{"result": value}` in the function-response turn while the `tool_result`
event carries the unwrapped value; a mapping result is carried unchanged by
both. -/
theorem tool_result_wrapping (f : Exec) (nm : Str) (args : List (Str × JVal))
    (rest : List ToolCall) (v : JVal)
    (h : f nm args = Except.ok v) :
    (execToolCalls f ({ name := nm, args := args } :: rest)).1 =
      StreamEvent.tool_result nm v :: (execToolCalls f rest).1 ∧
    (execToolCalls f ({ name := nm, args := args } :: rest)).2 =
      { name := nm, response := wrapResult v } :: (execToolCalls f rest).2 ∧
    ((∀ fields, v ≠ JVal.obj fields) →
      wrapResult v = JVal.obj [(("result").data, v)]) ∧
    (∀ fields, v = JVal.obj fields → wrapResult v = v) := by
  refine ⟨execToolCalls_fst_cons_ok f { name := nm, args := args } rest v h,
    execToolCalls_snd_cons_ok f { name := nm, args := args } rest v h, ?_, ?_⟩
  · intro hno
    cases v with
    | obj fields => exact absurd rfl (hno fields)
    | null => rfl
    | bool b => rfl
    | num n => rfl
    | str s => rfl
    | arr items => rfl
  · intro fields hv
    subst hv
    rfl

/-- Witness for C10 with a concrete executor returning a non-mapping value. -/
theorem tool_result_wrapping_witness :
    (execToolCalls execOkStub ({ name := ("t").data, args := [] } :: [])).1 =
      StreamEvent.tool_result (("t").data) (JVal.num 3)
        :: (execToolCalls execOkStub []).1 ∧
    (execToolCalls execOkStub ({ name := ("t").data, args := [] } :: [])).2 =
      { name := ("t").data, response := wrapResult (JVal.num 3) }
        :: (execToolCalls execOkStub []).2 ∧
    ((∀ fields, JVal.num 3 ≠ JVal.obj fields) →
      wrapResult (JVal.num 3) = JVal.obj [(("result").data, JVal.num 3)]) ∧
    (∀ fields, JVal.num 3 = JVal.obj fields → wrapResult (JVal.num 3) = JVal.num 3) :=
  tool_result_wrapping execOkStub (("t").data) [] [] (JVal.num 3) rfl

end Sbhacks
